import Mathlib

/-!
Shallow embedding of the course-seat-radar monitor (src/app.py) and proofs
about its availability-detection and notification pipeline.

Modelling conventions:
* Python strings are Lean `String` (a wrapper around `List Char`); we work
  on `String.data` with explicit recursive helpers mirroring `str.split`,
  `str.strip`, `int(...)`, `str.upper`, `c.isdigit()` for the ASCII range
  used by this program.
* Seat values coming from JSON are modelled by their `str(...)` form, which
  is observationally equivalent for every use in the program (`'/' in s`,
  `s.split('/')`, `int(s)` are all applied to `str(seats)`).
* Wall-clock times are `Nat` timestamps passed explicitly.
* Network effects are modelled by passing the data a call would return
  (per-department listings, per-attempt HTTP statuses, per-recipient send
  outcomes) as explicit inputs.
-/

/-- ASCII/latin whitespace recognised by Python `str.strip()` /
`str.split()` for the character set this program handles. -/
def pyIsSpace (c : Char) : Bool :=
  c = ' ' || c = '\t' || c = '\n' || c = '\r' || c.toNat = 11 || c.toNat = 12

/-- Membership of a character in a character list (Python `c in s`). -/
def containsChar (l : List Char) (c : Char) : Bool :=
  match l with
  | [] => false
  | x :: xs => if x = c then true else containsChar xs c

/-- Python `s.split(sep)` on a single-character separator: splits at every
occurrence, keeping empty pieces (`"".split('/') == [""]`). -/
def splitOnChar (c : Char) : List Char → List (List Char)
  | [] => [[]]
  | x :: xs =>
    if x = c then [] :: splitOnChar c xs
    else
      match splitOnChar c xs with
      | h :: t => (x :: h) :: t
      | [] => [[x]]

/-- Python `s.strip()`: drop whitespace from both ends. -/
def pyStrip (l : List Char) : List Char :=
  ((l.dropWhile pyIsSpace).reverse.dropWhile pyIsSpace).reverse

/-- Digit run as accepted by Python `int()` after the first digit: decimal
digits with single underscores allowed between digits. Accumulates the
value. -/
def digitsCore (acc : Nat) : List Char → Option Nat
  | [] => some acc
  | '_' :: c :: rest =>
    if c.isDigit then digitsCore (acc * 10 + (c.toNat - 48)) rest else none
  | c :: rest =>
    if c.isDigit then digitsCore (acc * 10 + (c.toNat - 48)) rest else none

/-- Nonempty digit run for Python `int()` (first character must be a digit). -/
def digitsVal : List Char → Option Nat
  | [] => none
  | c :: rest => if c.isDigit then digitsCore (c.toNat - 48) rest else none

/-- Python `int(s)` on the ASCII fragment: strip whitespace, optional sign,
then a digit run; `none` models a raised `ValueError`. -/
def parseIntChars (l : List Char) : Option Int :=
  match pyStrip l with
  | '+' :: rest => (digitsVal rest).map (fun n => (n : Int))
  | '-' :: rest => (digitsVal rest).map (fun n => -(n : Int))
  | rest => (digitsVal rest).map (fun n => (n : Int))

/-- Python `int(s)` on a `String`. -/
def parseIntPy (s : String) : Option Int :=
  parseIntChars s.data

/-- src/app.py `has_available_seats(seats)` (identical module-level function
and `ThreadSafeState` method): `False` for falsy/`'N/A'` input; on a string
containing `'/'`, unpack `current, total = seats.split('/')` (exactly two
pieces, else the `ValueError` is caught) and test `int(current.strip()) > 0`;
otherwise test `int(seats.strip()) > 0`; any parse error yields `False`. -/
def has_available_seats (seats : String) : Bool :=
  if seats.data = [] || seats = "N/A" then false
  else if containsChar seats.data '/' then
    match splitOnChar '/' seats.data with
    | [current, _total] =>
      match parseIntChars current with
      | some n => decide (0 < n)
      | none => false
    | _ => false
  else
    match parseIntChars seats.data with
    | some n => decide (0 < n)
    | none => false

/-- Comparison definition following the spec words of the implicit claim:
the string before the slash parses as an integer greater than zero. -/
def parsesPositive (a : String) : Bool :=
  match parseIntPy a with
  | some n => decide (0 < n)
  | none => false

example : has_available_seats "3/25" = true := by decide
example : has_available_seats "0/25" = false := by decide
example : has_available_seats "N/A" = false := by decide
example : has_available_seats "5/2" = true := by decide
example : has_available_seats "5/0" = true := by decide
example : has_available_seats "" = false := by decide
example : has_available_seats " 7 " = true := by decide
example : has_available_seats "x/3" = false := by decide
example : has_available_seats "1/2/3" = false := by decide
example : parseIntPy " -4 " = some (-4) := by decide
example : parseIntPy "1_0" = some 10 := by decide
example : parseIntPy "1__0" = none := by decide

/-- One tracked section of the manifest (`{"section": ..., "crn": ...}`).
`section` is a Lean keyword, so the field is named `sec`. -/
structure TrackedSec where
  sec : String
  crn : String
deriving DecidableEq

/-- One tracked course of the manifest (`{"code": ..., "sections": [...]}`). -/
structure Course where
  code : String
  sections : List TrackedSec
deriving DecidableEq

/-- The persisted manifest: department -> list of courses, as an
insertion-ordered association list (Python dict). -/
abbrev Manifest := List (String × List Course)

/-- A nested entry of a raw course record's optional `sections` list; each
field is read with `.get(...)` and may be absent. -/
structure NestedRec where
  sec : Option String
  crn : Option String
  seats : Option String
deriving DecidableEq

/-- One raw course entry from an upstream department listing. `sec` embeds
`course_data.get('section', '')` and `crn` embeds
`str(course_data.get('crn', ''))`; `code` embeds `course.get('code')`
(no default, hence optional); `seats` embeds the optional `'seats'` field;
`sections` embeds the optional nested list (absent = `[]`). -/
structure RawRec where
  code : Option String
  sec : String
  crn : String
  seats : Option String
  sections : List NestedRec
deriving DecidableEq

/-- The listings a poll cycle obtained: department -> result of
`get_department_courses` (empty list on failure, rate-limit or no data). -/
abbrev DeptData := List (String × List RawRec)

/-- Python `str(x)` for an optional string, as applied to
`section.get('crn')`: an absent field prints as `"None"`. -/
def crnStr (o : Option String) : String :=
  match o with
  | some s => s
  | none => "None"

/-- What `find_section_data` returned: the course record itself or one of
its nested section entries. -/
inductive Matched where
  | top (r : RawRec)
  | nested (n : NestedRec)
deriving DecidableEq

/-- src/app.py `find_section_data(course_data, target_section)`: return the
course entry when its section number **or** CRN matches the target;
otherwise scan the optional nested `sections` list with the same
section-or-CRN test and return the first hit; else `None`. -/
def find_section_data (course_data : RawRec) (target : TrackedSec) : Option Matched :=
  if course_data.sec = target.sec || course_data.crn = target.crn then
    some (Matched.top course_data)
  else
    match course_data.sections.find? (fun n =>
        n.sec = some target.sec || crnStr n.crn = target.crn) with
    | some n => some (Matched.nested n)
    | none => none

/-- `section_data.get('seats', 'N/A')` on the matched record. -/
def seatsOfMatched (m : Matched) : String :=
  match m with
  | Matched.top r => r.seats.getD "N/A"
  | Matched.nested n => n.seats.getD "N/A"

/-- The `section_info` dict built by `check_section_availability` (the
display-only fields title/instructor/schedule/location are omitted: they
feed only the formatted message text). -/
structure SectionInfo where
  department : String
  code : String
  sec : String
  crn : String
  seats : String
deriving DecidableEq

/-- The inner `for course_instance in matching_courses` loop: the first
course instance for which `find_section_data` returns data wins (`break`). -/
def firstSectionMatch (matching : List RawRec) (target : TrackedSec) : Option Matched :=
  match matching with
  | [] => none
  | c :: rest =>
    match find_section_data c target with
    | some m => some m
    | none => firstSectionMatch rest target

/-- Concatenation of per-element results (the appends performed by the
nested `for` loops of `check_section_availability`). -/
def listFlat {α β : Type} (f : α → List β) : List α → List β
  | [] => []
  | x :: xs => f x ++ listFlat f xs

/-- The body of `check_section_availability` for one tracked course:
`matching_courses` filters the department listing by course code, then each
monitored section takes its first match. -/
def checkCourse (department : String) (deptCourses : List RawRec) (tc : Course) :
    List SectionInfo :=
  let matching := deptCourses.filter (fun c => decide (c.code = some tc.code))
  tc.sections.filterMap (fun t =>
    (firstSectionMatch matching t).map (fun m =>
      { department := department, code := tc.code, sec := t.sec, crn := t.crn
        seats := seatsOfMatched m }))

/-- src/app.py `check_section_availability()` as a function of the manifest
and the per-department listings this cycle: returns
`(available_sections, all_section_data)`. A department with no tracked
courses or an empty listing is skipped (`continue`); `available_sections`
collects exactly the entries whose seats pass `has_available_seats`. -/
def check_section_availability (manifest : Manifest) (data : DeptData) :
    List SectionInfo × List SectionInfo :=
  let all := listFlat (fun dep =>
    match dep with
    | (department, courses) =>
      if courses = [] then []
      else
        let dc := ((data.lookup department).getD [])
        if dc = [] then []
        else listFlat (checkCourse department dc) courses) manifest
  (all.filter (fun s => has_available_seats s.seats), all)

/-- The notification identifier `f"{s['code']}-{s['section']}-{s['crn']}"`
used by the monitor loop's set difference. -/
def identifier (s : SectionInfo) : String :=
  s.code ++ "-" ++ s.sec ++ "-" ++ s.crn

/-- Membership in a list of identifiers (Python `x in set_of_ids`). -/
def listMem (x : String) : List String → Bool
  | [] => false
  | y :: ys => if y = x then true else listMem x ys

/-- The identifiers of the sections reported available this cycle
(`current_identifiers` of the monitor loop, as a list whose membership is
the Python set's membership). -/
def availIds (manifest : Manifest) (data : DeptData) : List String :=
  ((check_section_availability manifest data).1).map identifier

/-- One iteration of the monitor loop after `check_section_availability`:
`new_sections = current_identifiers - previous_available_sections`, notify
the sections whose identifier is new, and replace
`previous_available_sections` by `current_identifiers`. Returns the
notified sections and the new previous-set. -/
def monitor_step (prev : List String) (manifest : Manifest) (data : DeptData) :
    List SectionInfo × List String :=
  let available := (check_section_availability manifest data).1
  (available.filter (fun s => !(listMem (identifier s) prev)),
   available.map identifier)

/-- Iterated monitor cycles over a list of per-cycle listings: the lists of
notified sections, cycle by cycle, and the final previous-set. -/
def run_cycles (manifest : Manifest) (prev : List String) :
    List DeptData → List (List SectionInfo) × List String
  | [] => ([], prev)
  | d :: ds =>
    let step := monitor_step prev manifest d
    let rest := run_cycles manifest step.2 ds
    (step.1 :: rest.1, rest.2)

/-- The sections notified in cycle `i` of a run (empty beyond the run). -/
def cycleEvents (manifest : Manifest) (prev : List String) (ds : List DeptData)
    (i : Nat) : List SectionInfo :=
  ((run_cycles manifest prev ds).1).getD i []

/-- src/app.py `CourseState` dataclass. -/
structure CourseState where
  status : String
  last_updated : Nat
  available_seats : Int
deriving DecidableEq

/-- The mutable fields of `ThreadSafeState`; `course_data` is a Python dict
modelled as an insertion-ordered association list. -/
structure AppState where
  course_status : String
  last_status_update : Nat
  check_count : Nat
  course_data : List (String × CourseState)
deriving DecidableEq

/-- Python dict lookup `d.get(k)`. -/
def dictLookup {α : Type} (d : List (String × α)) (k : String) : Option α :=
  match d with
  | [] => none
  | (k', v) :: rest => if k' = k then some v else dictLookup rest k

/-- Python dict assignment `d[k] = v` on the association-list model:
replace in place, else append (insertion order). -/
def dictInsert {α : Type} (d : List (String × α)) (k : String) (v : α) :
    List (String × α) :=
  match d with
  | [] => [(k, v)]
  | (k', v') :: rest =>
    if k' = k then (k, v) :: rest else (k', v') :: dictInsert rest k v

/-- The `available_seats` computation inside
`ThreadSafeState.update_status`: when `has_available_seats(seats)`, unpack
`current, _ = str(seats).split('/')` and take `int(current.strip())`; any
`ValueError` (for example a seats string without `'/'`) yields `0`. -/
def updateAvailableSeats (seats : String) : Int :=
  if has_available_seats seats then
    match splitOnChar '/' seats.data with
    | [current, _total] => (parseIntChars current).getD 0
    | _ => 0
  else 0

/-- The per-section write of `ThreadSafeState.update_status`:
`course_data[f"code-section"] = CourseState(seats, now, available_seats)`.
The Python `if course_data:` guard skips `None` and the empty list alike,
which coincides with folding over the empty list. -/
def updateCourseEntry (now : Nat) (s : AppState) (course : SectionInfo) : AppState :=
  let cs : CourseState :=
    { status := course.seats
      last_updated := now
      available_seats := updateAvailableSeats course.seats }
  { s with course_data :=
      dictInsert s.course_data (course.code ++ "-" ++ course.sec) cs }

/-- src/app.py `ThreadSafeState.update_status(status, course_data)`
assembled: set the status line, timestamp and counter, then write each
reported section's `CourseState` (see `updateCourseEntry`). -/
def update_status (st : AppState) (now : Nat) (status : String)
    (course_data : List SectionInfo) : AppState :=
  let st1 : AppState :=
    { st with
        course_status := status
        last_status_update := now
        check_count := st.check_count + 1 }
  course_data.foldl (updateCourseEntry now) st1

/-- src/app.py `CircuitBreaker` instance fields; `state` keeps the source's
string representation (`"CLOSED"`, `"OPEN"`, `"HALF_OPEN"`). -/
structure CircuitBreaker where
  failure_threshold : Nat
  recovery_timeout : Nat
  failure_count : Nat
  last_failure_time : Nat
  state : String
deriving DecidableEq

/-- `CircuitBreaker.__init__(failure_threshold, recovery_timeout)`. -/
def initCB (failure_threshold recovery_timeout : Nat) : CircuitBreaker :=
  { failure_threshold := failure_threshold, recovery_timeout := recovery_timeout
    failure_count := 0, last_failure_time := 0, state := "CLOSED" }

/-- `CircuitBreaker.can_execute()` at time `now`: while OPEN, allow (and
move to HALF_OPEN) only once the recovery timeout has elapsed; any other
state allows. Returns the decision and the possibly updated breaker. -/
def can_execute (cb : CircuitBreaker) (now : Nat) : Bool × CircuitBreaker :=
  if cb.state = "OPEN" then
    if cb.recovery_timeout < now - cb.last_failure_time then
      (true, { cb with state := "HALF_OPEN" })
    else (false, cb)
  else (true, cb)

/-- `CircuitBreaker.record_success()`: reset the counter and close. -/
def record_success (cb : CircuitBreaker) : CircuitBreaker :=
  { cb with failure_count := 0, state := "CLOSED" }

/-- `CircuitBreaker.record_failure()` at time `now`: increment the counter,
stamp the failure time, and open once the threshold is reached. -/
def record_failure (cb : CircuitBreaker) (now : Nat) : CircuitBreaker :=
  let fc := cb.failure_count + 1
  if cb.failure_threshold ≤ fc ∧ cb.state ≠ "OPEN" then
    { cb with failure_count := fc, last_failure_time := now, state := "OPEN" }
  else
    { cb with failure_count := fc, last_failure_time := now }

/-- The observable outcome of `robust_api_call`. -/
inductive ApiResult where
  | ok
  | refused
  | authFailed
  | failed
deriving DecidableEq

/-- The retry loop of `robust_api_call`; each list entry is the HTTP status
the next network attempt would return (`none` models a raised
`RequestException`). A `200` records success and returns; a `401`
invalidates the session and returns **without recording anything**; every
other outcome retries; an exhausted loop records a failure. Also counts the
network attempts actually made. -/
def runAttempts (cb : CircuitBreaker) (now : Nat) :
    List (Option Nat) → ApiResult × CircuitBreaker × Nat
  | [] => (ApiResult.failed, record_failure cb now, 0)
  | a :: rest =>
    if a = some 200 then (ApiResult.ok, record_success cb, 1)
    else if a = some 401 then (ApiResult.authFailed, cb, 1)
    else
      match runAttempts cb now rest with
      | (r, cb', n) => (r, cb', n + 1)

/-- src/app.py `robust_api_call(session, url, params, max_retries)`: consult
the circuit breaker first and refuse without any network I/O when it says
no; otherwise run the attempt loop (`attempts` lists the status of each of
the up-to-`max_retries` attempts). -/
def robust_api_call (cb : CircuitBreaker) (now : Nat)
    (attempts : List (Option Nat)) : ApiResult × CircuitBreaker × Nat :=
  let gate := can_execute cb now
  if gate.1 then runAttempts gate.2 now attempts
  else (ApiResult.refused, gate.2, 0)

/-- The breaker-facing events a thread can perform. -/
inductive CBEvent where
  | canExec (now : Nat)
  | recSuccess
  | recFailure (now : Nat)

/-- Effect of one event on the breaker. -/
def cbStep (cb : CircuitBreaker) : CBEvent → CircuitBreaker
  | CBEvent.canExec now => (can_execute cb now).2
  | CBEvent.recSuccess => record_success cb
  | CBEvent.recFailure now => record_failure cb now

/-- A trace of breaker events from a given breaker. -/
def cbRun (cb : CircuitBreaker) (es : List CBEvent) : CircuitBreaker :=
  es.foldl cbStep cb

/-- Folding consecutive failures (used for the CLOSED-to-OPEN law). -/
def failN (cb : CircuitBreaker) (ts : List Nat) : CircuitBreaker :=
  ts.foldl record_failure cb

/-- Outcome of `requests.post` for one Telegram recipient: an HTTP status,
or a raised exception. -/
inductive SendOutcome where
  | status (code : Nat)
  | exc
deriving DecidableEq

/-- The recipient loop of `send_telegram_message`: count `200` responses,
log other statuses and keep going; an exception propagates to the outer
`except` which returns `False` at once, so later recipients are never
attempted. Returns `(success_count > 0, recipients actually attempted)`. -/
def sendLoop (outcomes : List SendOutcome) (success_count attempted : Nat) :
    Bool × Nat :=
  match outcomes with
  | [] => (decide (0 < success_count), attempted)
  | SendOutcome.status c :: rest =>
    sendLoop rest (if c = 200 then success_count + 1 else success_count)
      (attempted + 1)
  | SendOutcome.exc :: _rest => (false, attempted + 1)

/-- src/app.py `send_telegram_message(message, chat_ids)`, abstracted over
the delivery outcome each recipient would produce. -/
def send_telegram_message (outcomes : List SendOutcome) : Bool × Nat :=
  sendLoop outcomes 0 0

/-- src/app.py `send_section_notification(available_sections, chat_ids)`:
return immediately on an empty event list (no message at all), else build
the aggregate message and send it. `none` models "no send attempted". -/
def send_section_notification (available_sections : List SectionInfo)
    (outcomes : List SendOutcome) : Option (Bool × Nat) :=
  if available_sections = [] then none
  else some (send_telegram_message outcomes)

/-- Python `text.split()` (no separator): words between whitespace runs. -/
def pySplitWsAux : List Char → List Char → List String
  | [], cur => if cur = [] then [] else [String.mk cur.reverse]
  | c :: rest, cur =>
    if pyIsSpace c then
      if cur = [] then pySplitWsAux rest []
      else String.mk cur.reverse :: pySplitWsAux rest []
    else pySplitWsAux rest (c :: cur)

/-- Python `text.split()` on a `String`. -/
def pySplitWs (s : String) : List String :=
  pySplitWsAux s.data []

/-- Python `s.upper()` on the ASCII range handled by this program. -/
def pyUpper (s : String) : String :=
  String.mk (s.data.map Char.toUpper)

/-- Python `s.split(sep, 1)` at the first occurrence of `sep`: the pieces
before and after it. Only used after a containment check, so the
no-occurrence shape is irrelevant. -/
def pySplitOnceAux (c : Char) : List Char → List Char × List Char
  | [] => ([], [])
  | x :: xs =>
    if x = c then ([], xs)
    else
      match pySplitOnceAux c xs with
      | (a, b) => (x :: a, b)

/-- `course_section.split('-', 1)` as a pair of strings. -/
def pySplitOnce (c : Char) (s : String) : String × String :=
  match pySplitOnceAux c s.data with
  | (a, b) => (String.mk a, String.mk b)

/-- `''.join([c for c in course_code if not c.isdigit()])`: the department
derived from a course code by deleting every decimal digit. -/
def stripDigits (s : String) : String :=
  String.mk (s.data.filter (fun c => !c.isDigit))

/-- The reply a command handler would send back. -/
inductive CmdResult where
  | formatError
  | noDepartment
  | alreadyMonitored
  | added
  | removedOk
  | notFound
  | noDeptCourses
deriving DecidableEq

/-- The course-list edit of `add_course_section`: find the first course with
the given code; reject when the section is already monitored (`none`), else
append the new section to it; when no course matches, append a fresh course
at the end of the department's list. -/
def addIntoDept (courses : List Course) (course_code sec crn : String) :
    Option (List Course) :=
  match courses with
  | [] => some [{ code := course_code, sections := [{ sec := sec, crn := crn }] }]
  | c :: rest =>
    if c.code = course_code then
      if c.sections.any (fun s => decide (s.sec = sec)) then none
      else some ({ c with sections := c.sections ++ [{ sec := sec, crn := crn }] } :: rest)
    else (addIntoDept rest course_code sec crn).map (fun r => c :: r)

/-- src/app.py `add_course_section(text, chat_id)` as a function of the
persisted manifest: parse `/add COURSE-SECTION CRN`, uppercase the
course-section, split it at the first `'-'`, derive the department by
deleting digits and reject when that leaves nothing; otherwise insert and
save. Persistence (`save_courses`) is modelled as succeeding; error paths
return the manifest unchanged because `save_courses` is never reached. -/
def add_course_section (text : String) (courses_data : Manifest) :
    Manifest × CmdResult :=
  match pySplitWs text with
  | [_, p1, p2] =>
    let course_section := pyUpper p1
    let crn := p2
    if !(containsChar course_section.data '-') then (courses_data, CmdResult.formatError)
    else
      let parts := pySplitOnce '-' course_section
      let course_code := parts.1
      let sec := parts.2
      let department := stripDigits course_code
      if department = "" then (courses_data, CmdResult.noDepartment)
      else
        let deptCourses := (dictLookup courses_data department).getD []
        match addIntoDept deptCourses course_code sec crn with
        | none => (courses_data, CmdResult.alreadyMonitored)
        | some newCourses =>
          (dictInsert courses_data department newCourses, CmdResult.added)
  | _ => (courses_data, CmdResult.formatError)

/-- The course-list edit of `remove_course_section`: the first course whose
code matches gets its sections filtered (`break` afterwards); reports
whether the filter removed anything. -/
def removeFromCourses : List Course → String → String → List Course × Bool
  | [], _, _ => ([], false)
  | c :: rest, code, sec =>
    if c.code = code then
      let newSecs := c.sections.filter (fun s => !decide (s.sec = sec))
      ({ c with sections := newSecs } :: rest, decide (newSecs.length < c.sections.length))
    else
      match removeFromCourses rest code sec with
      | (r, b) => (c :: r, b)

/-- src/app.py `remove_course_section(text, chat_id)` as a function of the
persisted manifest: parse `/remove COURSE-SECTION`, derive the department
as in `add`, and on a successful removal prune every course left with an
empty section list (`if course['sections']`) before saving. -/
def remove_course_section (text : String) (courses_data : Manifest) :
    Manifest × CmdResult :=
  match pySplitWs text with
  | [_, p1] =>
    let course_section := pyUpper p1
    if !(containsChar course_section.data '-') then (courses_data, CmdResult.formatError)
    else
      let parts := pySplitOnce '-' course_section
      let course_code := parts.1
      let sec := parts.2
      let department := stripDigits course_code
      match dictLookup courses_data department with
      | none => (courses_data, CmdResult.noDeptCourses)
      | some deptCourses =>
        match removeFromCourses deptCourses course_code sec with
        | (newCourses, removed) =>
          if removed then
            (dictInsert courses_data department
              (newCourses.filter (fun c => !c.sections.isEmpty)), CmdResult.removedOk)
          else (courses_data, CmdResult.notFound)
  | _ => (courses_data, CmdResult.formatError)

/-- Fixture: the tracked section EE207-02 / CRN 22716 of the default
manifest. -/
def secEx : TrackedSec := { sec := "02", crn := "22716" }

/-- Fixture: a manifest tracking only EE207-02. -/
def mEx : Manifest := [("EE", [{ code := "EE207", sections := [secEx] }])]

/-- Fixture: an upstream record for EE207-02 with three open seats. -/
def recGood : RawRec :=
  { code := some "EE207", sec := "02", crn := "22716"
    seats := some "3/25", sections := [] }

/-- Fixture: a cycle in which the EE department listing holds `recGood`. -/
def dGood : DeptData := [("EE", [recGood])]

/-- Fixture: a cycle in which every department fetch returned no data. -/
def dNone : DeptData := []

/-- Fixture: the same record with zero available seats. -/
def dZero : DeptData := [("EE", [{ recGood with seats := some "0/25" }])]

/-- Fixture: the same record with five available seats. -/
def dFive : DeptData := [("EE", [{ recGood with seats := some "5/25" }])]

/-- Fixture: the same record with unparseable seats. -/
def dNA : DeptData := [("EE", [{ recGood with seats := some "N/A" }])]

/-- Fixture: the notification identifier of the tracked section. -/
def idEx : String := "EE207-02-22716"

example : availIds mEx dGood = [idEx] := by decide
example : availIds mEx dNone = [] := by decide
example : availIds mEx dZero = [] := by decide
example : availIds mEx dNA = [] := by decide
example : (run_cycles mEx [] [dGood, dGood, dGood]).1.map (List.map identifier) =
    [[idEx], [], []] := by decide
example : (run_cycles mEx [] [dGood, dNone, dGood]).1.map (List.map identifier) =
    [[idEx], [], [idEx]] := by decide
example : (run_cycles mEx [] [dZero, dFive, dFive]).1.map (List.map identifier) =
    [[], [idEx], []] := by decide

/-- Fixture: prior app state remembering EE207-02 with three seats. -/
def stEx : AppState :=
  { course_status := "ok", last_status_update := 1, check_count := 1
    course_data := [("EE207-02",
      { status := "3/25", last_updated := 1, available_seats := 3 })] }

/-- Fixture: an observation of the tracked section with unparseable seats. -/
def infoNA : SectionInfo :=
  { department := "EE", code := "EE207", sec := "02", crn := "22716", seats := "N/A" }

/-- Fixture: a raw record whose section number matches EE207-02 but whose
CRN does not. -/
def recWrongCrn : RawRec :=
  { code := some "EE207", sec := "02", crn := "99999"
    seats := some "1/25", sections := [] }

/-- Fixture: an open breaker that tripped at time 0 (threshold 3,
recovery timeout 60, three recorded failures). -/
def cbOpenEx : CircuitBreaker :=
  { failure_threshold := 3, recovery_timeout := 60, failure_count := 3
    last_failure_time := 0, state := "OPEN" }

/-- Fixture: a manifest with two EE courses, one section each. -/
def courseEE271 : Course :=
  { code := "EE271", sections := [{ sec := "53", crn := "20825" }] }

/-- Fixture: manifest used for the remove-command proofs. -/
def mRem : Manifest :=
  [("EE", [{ code := "EE207", sections := [secEx] }, courseEE271])]




/-- Well-formedness of a breaker: the state string is one of the three
protocol states, and a breaker that is OPEN or HALF_OPEN has accumulated at
least `failure_threshold` failures since the last success. This is the
inductive invariant of every reachable breaker. -/
def cbWF (cb : CircuitBreaker) : Prop :=
  (cb.state = "CLOSED" ∨ cb.state = "OPEN" ∨ cb.state = "HALF_OPEN") ∧
  ((cb.state = "OPEN" ∨ cb.state = "HALF_OPEN") → cb.failure_threshold ≤ cb.failure_count)

/-! ## Helper lemmas about the monitor pipeline -/

theorem listMem_iff (x : String) (l : List String) : listMem x l = true ↔ x ∈ l := by
  induction l with
  | nil => simp [listMem]
  | cons y ys ih =>
    by_cases h : y = x
    · subst h; simp [listMem]
    · simp [listMem, h, ih]
      intro he
      exact absurd he.symm h

theorem monitor_step_snd (prev : List String) (m : Manifest) (d : DeptData) :
    (monitor_step prev m d).2 = availIds m d := rfl

theorem mem_events_iff (prev : List String) (m : Manifest) (d : DeptData) (x : String) :
    x ∈ (monitor_step prev m d).1.map identifier ↔ x ∈ availIds m d ∧ x ∉ prev := by
  unfold monitor_step availIds
  constructor
  · intro h
    rcases List.mem_map.1 h with ⟨s, hs, rfl⟩
    rcases List.mem_filter.1 hs with ⟨hmem, hb⟩
    refine ⟨List.mem_map.2 ⟨s, hmem, rfl⟩, fun hx => ?_⟩
    rw [Bool.not_eq_true', ← Bool.not_eq_true] at hb
    exact hb ((listMem_iff _ _).2 hx)
  · intro h
    rcases List.mem_map.1 h.1 with ⟨s, hs, rfl⟩
    refine List.mem_map.2 ⟨s, List.mem_filter.2 ⟨hs, ?_⟩, rfl⟩
    rw [Bool.not_eq_true', ← Bool.not_eq_true]
    intro hmem
    exact h.2 ((listMem_iff _ _).1 hmem)

theorem cycleEvents_nil (m : Manifest) (prev : List String) (i : Nat) :
    cycleEvents m prev [] i = [] := by
  cases i <;> rfl

theorem cycleEvents_zero (m : Manifest) (prev : List String) (d : DeptData)
    (ds : List DeptData) : cycleEvents m prev (d :: ds) 0 = (monitor_step prev m d).1 := rfl

theorem cycleEvents_succ (m : Manifest) (prev : List String) (d : DeptData)
    (ds : List DeptData) (i : Nat) :
    cycleEvents m prev (d :: ds) (i + 1) = cycleEvents m (monitor_step prev m d).2 ds i := rfl

theorem no_fire_of_mem_prev (m : Manifest) (x : String) :
    ∀ (ds : List DeptData) (prev : List String), x ∈ prev →
      (∀ d ∈ ds, x ∈ availIds m d) →
      ∀ i, x ∉ (cycleEvents m prev ds i).map identifier := by
  intro ds
  induction ds with
  | nil =>
    intro prev _ _ i
    rw [cycleEvents_nil]
    simp
  | cons d rest ih =>
    intro prev hprev hall i
    cases i with
    | zero =>
      rw [cycleEvents_zero]
      intro hmem
      exact ((mem_events_iff prev m d x).1 hmem).2 hprev
    | succ j =>
      rw [cycleEvents_succ, monitor_step_snd]
      exact ih (availIds m d) (hall d (List.mem_cons_self d rest))
        (fun d' hd' => hall d' (List.mem_cons_of_mem d hd')) j

/-- C1: became-available events are edge-triggered. First, for a section
available in every cycle of a nonempty run and not previously available,
the pipeline (`check_section_availability` plus the monitor loop's set
difference) notifies it in cycle 0 and in no later cycle. Second, a section
not available in one cycle (for example observed at 0 seats) and available
in the next (for example at 5 seats) is notified exactly once, in that
second cycle. -/
theorem edge_triggered_events :
    (∀ (m : Manifest) (ds : List DeptData) (x : String) (prev : List String),
       x ∉ prev → ds ≠ [] → (∀ d ∈ ds, x ∈ availIds m d) →
       x ∈ (cycleEvents m prev ds 0).map identifier ∧
       ∀ i, 0 < i → x ∉ (cycleEvents m prev ds i).map identifier) ∧
    (∀ (m : Manifest) (x : String) (prev : List String) (d1 d2 : DeptData),
       x ∉ availIds m d1 → x ∈ availIds m d2 →
       x ∉ (cycleEvents m prev [d1, d2] 0).map identifier ∧
       x ∈ (cycleEvents m prev [d1, d2] 1).map identifier) := by
  constructor
  · intro m ds x prev hprev hne hall
    cases ds with
    | nil => exact absurd rfl hne
    | cons d rest =>
      constructor
      · rw [cycleEvents_zero]
        exact (mem_events_iff prev m d x).2 ⟨hall d (List.mem_cons_self d rest), hprev⟩
      · intro i hi
        cases i with
        | zero => exact absurd hi (by simp)
        | succ j =>
          rw [cycleEvents_succ, monitor_step_snd]
          exact no_fire_of_mem_prev m x rest (availIds m d)
            (hall d (List.mem_cons_self d rest))
            (fun d' hd' => hall d' (List.mem_cons_of_mem d hd')) j
  · intro m x prev d1 d2 h1 h2
    constructor
    · rw [cycleEvents_zero]
      intro hmem
      exact h1 ((mem_events_iff prev m d1 x).1 hmem).1
    · rw [cycleEvents_succ, monitor_step_snd, cycleEvents_zero]
      exact (mem_events_iff (availIds m d1) m d2 x).2 ⟨h2, h1⟩

/-- Witness for `edge_triggered_events` at the concrete fixture: three
cycles at 3/25 seats notify in cycle 0 only, and a 0-seat cycle followed by
a 5-seat cycle notifies in the second cycle only. -/
theorem edge_triggered_events_witness :
    (idEx ∈ (cycleEvents mEx [] [dGood, dGood, dGood] 0).map identifier ∧
     idEx ∉ (cycleEvents mEx [] [dGood, dGood, dGood] 1).map identifier ∧
     idEx ∉ (cycleEvents mEx [] [dGood, dGood, dGood] 2).map identifier) ∧
    (idEx ∉ (cycleEvents mEx [] [dZero, dFive] 0).map identifier ∧
     idEx ∈ (cycleEvents mEx [] [dZero, dFive] 1).map identifier) := by
  have h1 := edge_triggered_events.1 mEx [dGood, dGood, dGood] idEx []
    (by decide) (by decide)
    (by intro d hd; simp only [List.mem_cons, List.not_mem_nil, or_false] at hd
        rcases hd with h | h | h <;> (subst h; decide))
  have h2 := edge_triggered_events.2 mEx idEx [] dZero dFive (by decide) (by decide)
  exact ⟨⟨h1.1, h1.2 1 (by decide), h1.2 2 (by decide)⟩, ⟨h2.1, h2.2⟩⟩

/-! ## Dictionary and app-state lemmas -/

theorem dictLookup_insert_self {α : Type} (d : List (String × α)) (k : String) (v : α) :
    dictLookup (dictInsert d k v) k = some v := by
  induction d with
  | nil => simp [dictInsert, dictLookup]
  | cons p rest ih =>
    by_cases h : p.1 = k
    · simp [dictInsert, h, dictLookup]
    · simp [dictInsert, h, dictLookup, ih]

theorem dictLookup_insert_ne {α : Type} (d : List (String × α)) (k k' : String) (v : α)
    (h : k ≠ k') : dictLookup (dictInsert d k v) k' = dictLookup d k' := by
  induction d with
  | nil => simp [dictInsert, dictLookup, h]
  | cons p rest ih =>
    by_cases hp : p.1 = k
    · simp [dictInsert, hp, dictLookup, h]
    · simp [dictInsert, hp, dictLookup, ih]

theorem foldl_updateCourseEntry_untouched (now : Nat) (key : String) :
    ∀ (cd : List SectionInfo) (s : AppState),
      (∀ c ∈ cd, c.code ++ "-" ++ c.sec ≠ key) →
      dictLookup ((cd.foldl (updateCourseEntry now) s).course_data) key =
        dictLookup s.course_data key := by
  intro cd
  induction cd with
  | nil => intro s _; rfl
  | cons c rest ih =>
    intro s hall
    rw [List.foldl_cons, ih _ (fun c' hc' => hall c' (List.mem_cons_of_mem c hc'))]
    show dictLookup (dictInsert s.course_data (c.code ++ "-" ++ c.sec) _) key = _
    exact dictLookup_insert_ne _ _ _ _ (hall c (List.mem_cons_self c rest))

theorem update_status_untouched (st : AppState) (now : Nat) (status : String)
    (cd : List SectionInfo) (key : String)
    (h : ∀ c ∈ cd, c.code ++ "-" ++ c.sec ≠ key) :
    dictLookup (update_status st now status cd).course_data key =
      dictLookup st.course_data key :=
  foldl_updateCourseEntry_untouched now key cd _ h

/-! ## C2: absence of a section from a cycle -/

/-- Counterexample to C2: with the section available, then a cycle in which
the department fetch returns no data, then the same positive seat count
again, the gap cycle itself fires nothing, but it empties the
previously-available set, so the third cycle re-fires a notification for
the unchanged seat count — the claim says it must not. -/
theorem absence_resets_baseline_cex :
    (cycleEvents mEx [] [dGood, dNone, dGood] 1).map identifier = [] ∧
    (run_cycles mEx [] [dGood, dNone]).2 = [] ∧
    idEx ∈ (cycleEvents mEx [] [dGood, dNone, dGood] 2).map identifier := by
  decide

/-- C2 (amended): a cycle in which the department fetch returns no data (or
the section is absent from the listings) fires no event for that section,
and leaves the section's stored `CourseState` entry untouched; however the
monitor loop overwrites the previously-available set with the cycle's
available identifiers, dropping the absent section, so a subsequent cycle
observing the same positive seat count as before the gap fires a fresh
notification. -/
theorem absence_no_event_but_resets :
    (∀ (m : Manifest) (d : DeptData) (prev : List String) (x : String),
       x ∉ availIds m d → x ∉ (monitor_step prev m d).1.map identifier) ∧
    (∀ (m : Manifest) (d : DeptData) (prev : List String),
       (monitor_step prev m d).2 = availIds m d) ∧
    (∀ (st : AppState) (now : Nat) (status : String) (cd : List SectionInfo)
       (key : String), (∀ c ∈ cd, c.code ++ "-" ++ c.sec ≠ key) →
       dictLookup (update_status st now status cd).course_data key =
         dictLookup st.course_data key) ∧
    (∀ (m : Manifest) (x : String) (prev : List String) (d1 d2 : DeptData),
       x ∉ availIds m d1 → x ∈ availIds m d2 →
       x ∈ (cycleEvents m prev [d1, d2] 1).map identifier) := by
  refine ⟨?_, fun m d prev => monitor_step_snd prev m d, ?_, ?_⟩
  · intro m d prev x hx hmem
    exact hx ((mem_events_iff prev m d x).1 hmem).1
  · exact fun st now status cd key h => update_status_untouched st now status cd key h
  · intro m x prev d1 d2 h1 h2
    rw [cycleEvents_succ, monitor_step_snd, cycleEvents_zero]
    exact (mem_events_iff (availIds m d1) m d2 x).2 ⟨h2, h1⟩

/-- Witness for `absence_no_event_but_resets` at concrete inputs: the
no-data cycle fires nothing for EE207-02, its stored state survives an
update that does not mention it, and the good-bad-good run re-fires. -/
theorem absence_no_event_but_resets_witness :
    idEx ∉ (monitor_step [idEx] mEx dNone).1.map identifier ∧
    dictLookup (update_status stEx 9 "down" []).course_data "EE207-02" =
      dictLookup stEx.course_data "EE207-02" ∧
    idEx ∈ (cycleEvents mEx [] [dNone, dGood] 1).map identifier := by
  refine ⟨absence_no_event_but_resets.1 mEx dNone [idEx] idEx (by decide), ?_, ?_⟩
  · exact absence_no_event_but_resets.2.2.1 stEx 9 "down" [] "EE207-02" (by simp)
  · exact absence_no_event_but_resets.2.2.2 mEx idEx [] dNone dGood (by decide) (by decide)

/-! ## C5: unverified observations -/

theorem check_fst (m : Manifest) (d : DeptData) :
    (check_section_availability m d).1 =
      (check_section_availability m d).2.filter (fun s => has_available_seats s.seats) := rfl

theorem updateAvailableSeats_unverified (s : String)
    (h : has_available_seats s = false) : updateAvailableSeats s = 0 := by
  simp [updateAvailableSeats, h]

theorem update_status_single (st : AppState) (now : Nat) (status : String)
    (info : SectionInfo) :
    dictLookup (update_status st now status [info]).course_data
      (info.code ++ "-" ++ info.sec) =
      some { status := info.seats, last_updated := now
             available_seats := updateAvailableSeats info.seats } := by
  show dictLookup (dictInsert st.course_data (info.code ++ "-" ++ info.sec) _)
    (info.code ++ "-" ++ info.sec) = _
  exact dictLookup_insert_self _ _ _

/-- Counterexample to C5: the app state remembers EE207-02 at 3 available
seats; one observation with seats `"N/A"` overwrites the entry with
`available_seats = 0` (the claim says the baseline is never reset), and the
monitor loop's previously-available set is emptied as well. -/
theorem unverified_resets_cex :
    dictLookup stEx.course_data "EE207-02" =
      some { status := "3/25", last_updated := 1, available_seats := 3 } ∧
    dictLookup (update_status stEx 9 "down" [infoNA]).course_data "EE207-02" =
      some { status := "N/A", last_updated := 9, available_seats := 0 } ∧
    (monitor_step [idEx] mEx dNA).2 = [] := by
  decide

/-- C5 (amended): an unverified observation (seat fields absent or
non-numeric) never produces a became-available event — every notified
section passes `has_available_seats` — but it **does** reset the recorded
baseline: the observation overwrites the section's `CourseState` with
`available_seats = 0` (and, being unavailable, also drops the section from
the previously-available set). -/
theorem unverified_never_fires_but_resets :
    (∀ (prev : List String) (m : Manifest) (d : DeptData),
       ∀ s ∈ (monitor_step prev m d).1, has_available_seats s.seats = true) ∧
    (∀ (st : AppState) (now : Nat) (status : String) (info : SectionInfo),
       has_available_seats info.seats = false →
       dictLookup (update_status st now status [info]).course_data
         (info.code ++ "-" ++ info.sec) =
         some { status := info.seats, last_updated := now, available_seats := 0 }) := by
  constructor
  · intro prev m d s hs
    have h1 : s ∈ (check_section_availability m d).1 := (List.mem_filter.1 hs).1
    rw [check_fst] at h1
    exact (List.mem_filter.1 h1).2
  · intro st now status info h
    rw [update_status_single, updateAvailableSeats_unverified info.seats h]

/-- Witness for `unverified_never_fires_but_resets`: the section notified in
the concrete good cycle indeed has verified-available seats, and the
concrete `"N/A"` observation stores a zero baseline. -/
theorem unverified_never_fires_but_resets_witness :
    has_available_seats "3/25" = true ∧
    dictLookup (update_status stEx 9 "down" [infoNA]).course_data "EE207-02" =
      some { status := "N/A", last_updated := 9, available_seats := 0 } := by
  constructor
  · exact unverified_never_fires_but_resets.1 [] mEx dGood
      { department := "EE", code := "EE207", sec := "02", crn := "22716", seats := "3/25" }
      (by decide)
  · exact unverified_never_fires_but_resets.2 stEx 9 "down" infoNA (by decide)

/-! ## C3: section matching -/

/-- Counterexample to C3: a raw record whose section field matches the
tracked section but whose CRN differs is selected by `find_section_data`,
and it shadows a later record carrying the tracked CRN. -/
theorem match_by_section_cex :
    find_section_data recWrongCrn secEx = some (Matched.top recWrongCrn) ∧
    recWrongCrn.crn ≠ secEx.crn ∧
    firstSectionMatch [recWrongCrn, recGood] secEx = some (Matched.top recWrongCrn) := by
  decide

theorem find_section_data_top (r : RawRec) (t : TrackedSec)
    (h : r.sec = t.sec ∨ r.crn = t.crn) :
    find_section_data r t = some (Matched.top r) := by
  rcases h with h | h <;> simp [find_section_data, h]

/-- C3 (amended): matching is by section number **or** CRN, not CRN alone:
`find_section_data` selects a record as soon as its section field equals
the tracked section or its CRN equals the tracked CRN, and the course-scan
loop takes the first such record — so a record whose section field matches
but whose CRN differs is selected, shadowing any later record with the
tracked CRN. -/
theorem match_section_or_crn :
    (∀ (r : RawRec) (t : TrackedSec), r.sec = t.sec ∨ r.crn = t.crn →
       find_section_data r t = some (Matched.top r)) ∧
    (∀ (r : RawRec) (rest : List RawRec) (t : TrackedSec), r.sec = t.sec →
       firstSectionMatch (r :: rest) t = some (Matched.top r)) := by
  refine ⟨find_section_data_top, ?_⟩
  intro r rest t h
  unfold firstSectionMatch
  rw [find_section_data_top r t (Or.inl h)]

/-- Witness for `match_section_or_crn`: concrete selections, including the
record whose CRN disagrees with the tracked 22716. -/
theorem match_section_or_crn_witness :
    find_section_data recGood secEx = some (Matched.top recGood) ∧
    firstSectionMatch [recWrongCrn] secEx = some (Matched.top recWrongCrn) := by
  constructor
  · exact match_section_or_crn.1 recGood secEx (Or.inr (by decide))
  · exact match_section_or_crn.2 recWrongCrn [] secEx (by decide)

/-! ## C8 and C4: the slash-string seat format -/

theorem str_data_append (x y : String) : (x ++ y).data = x.data ++ y.data := rfl

theorem containsChar_cons_ne (x : Char) (xs : List Char) (c : Char) (h : ¬ x = c) :
    containsChar (x :: xs) c = containsChar xs c := by
  simp [containsChar, h]

theorem containsChar_append_slash (a b : List Char) :
    containsChar (a ++ '/' :: b) '/' = true := by
  induction a with
  | nil => simp [containsChar]
  | cons x xs ih =>
    by_cases h : x = '/'
    · simp [containsChar, h]
    · rw [List.cons_append, containsChar_cons_ne x _ '/' h, ih]

theorem splitOnChar_no_sep (c : Char) (l : List Char) (h : containsChar l c = false) :
    splitOnChar c l = [l] := by
  induction l with
  | nil => rfl
  | cons x xs ih =>
    by_cases hx : x = c
    · rw [hx] at h; simp [containsChar] at h
    · rw [containsChar_cons_ne x xs c hx] at h
      simp only [splitOnChar, if_neg hx, ih h]

theorem splitOnChar_append (a b : List Char) (ha : containsChar a '/' = false) :
    splitOnChar '/' (a ++ '/' :: b) = a :: splitOnChar '/' b := by
  induction a with
  | nil => simp [splitOnChar]
  | cons x xs ih =>
    by_cases hx : x = '/'
    · rw [hx] at ha; simp [containsChar] at ha
    · rw [containsChar_cons_ne x xs '/' hx] at ha
      rw [List.cons_append]
      simp only [splitOnChar, if_neg hx, ih ha]

theorem data_slash (a b : String) :
    (a ++ "/" ++ b).data = a.data ++ '/' :: b.data := by
  rw [str_data_append, str_data_append]
  show (a.data ++ ['/']) ++ b.data = a.data ++ '/' :: b.data
  simp

theorem eq_NA_first (a b : String) (ha : containsChar a.data '/' = false)
    (h : a ++ "/" ++ b = "N/A") : a = "N" := by
  have h2 : a.data ++ '/' :: b.data = ['N', '/', 'A'] := by
    rw [← data_slash, h]
  cases hd : a.data with
  | nil =>
    rw [hd, List.nil_append] at h2
    injection h2 with h3 _
    exact absurd h3 (by decide)
  | cons x xs =>
    rw [hd] at h2
    cases xs with
    | nil =>
      rw [List.cons_append, List.nil_append] at h2
      injection h2 with h3 _
      have : a.data = ['N'] := by rw [hd, h3]
      cases a with
      | mk la =>
        show String.mk la = "N"
        rw [show la = ['N'] from this]
    | cons y ys =>
      rw [List.cons_append, List.cons_append] at h2
      injection h2 with h3 h4
      injection h4 with h5 _
      rw [hd, containsChar_cons_ne x _ '/' (by rw [h3]; decide)] at ha
      rw [h5] at ha
      simp [containsChar] at ha
theorem has_available_seats_slash (a b : String)
    (ha : containsChar a.data '/' = false) (hb : containsChar b.data '/' = false) :
    has_available_seats (a ++ "/" ++ b) = parsesPositive a := by
  by_cases hNA : a ++ "/" ++ b = "N/A"
  · rw [hNA, eq_NA_first a b ha hNA]
    decide
  · have hdata := data_slash a b
    have hne : ¬ (a ++ "/" ++ b).data = [] := by
      rw [hdata]; cases a.data <;> simp
    have hct : containsChar (a ++ "/" ++ b).data '/' = true := by
      rw [hdata]; exact containsChar_append_slash _ _
    have hsp : splitOnChar '/' (a ++ "/" ++ b).data = [a.data, b.data] := by
      rw [hdata, splitOnChar_append _ _ ha, splitOnChar_no_sep '/' b.data hb]
    unfold has_available_seats
    rw [if_neg (by simp [hne, hNA])]
    rw [if_pos hct, hsp]
    rfl

/-- C8: availability of a slash-formatted seats string is decided solely by
the integer before the `'/'`: for every string `a/b` with exactly one `'/'`,
`has_available_seats` is true exactly when `a` parses as a positive
integer, independently of `b`; in particular `"5/2"` (available exceeding
total) is accepted with no consistency check. -/
theorem slash_seats_first_int_only :
    (∀ a b : String, containsChar a.data '/' = false →
       containsChar b.data '/' = false →
       has_available_seats (a ++ "/" ++ b) = parsesPositive a) ∧
    has_available_seats "5/2" = true := by
  exact ⟨has_available_seats_slash, by decide⟩

/-- Witness for `slash_seats_first_int_only` at `a = "7"`, `b = "0"`. -/
theorem slash_seats_first_int_only_witness :
    has_available_seats ("7" ++ "/" ++ "0") = parsesPositive "7" :=
  slash_seats_first_int_only.1 "7" "0" (by decide) (by decide)

theorem updateAvailableSeats_slash (a b : String)
    (ha : containsChar a.data '/' = false) (hb : containsChar b.data '/' = false) :
    updateAvailableSeats (a ++ "/" ++ b) =
      (match parseIntPy a with
       | some n => if 0 < n then n else 0
       | none => 0) := by
  unfold updateAvailableSeats
  rw [has_available_seats_slash a b ha hb]
  have hsp : splitOnChar '/' (a ++ "/" ++ b).data = [a.data, b.data] := by
    rw [data_slash, splitOnChar_append _ _ ha, splitOnChar_no_sep '/' b.data hb]
  rw [hsp]
  unfold parsesPositive parseIntPy
  cases hq : parseIntChars a.data with
  | none => simp [hq]
  | some n =>
    by_cases hn : (0 : Int) < n
    · simp [hq, hn]
    · simp [hq, hn]

/-- Counterexample to C4: no swap correction exists. `"5/0"` reports
available 5 and total 0; the claimed swap would make the corrected
available count 0 (not available), yet the availability check accepts it;
and for `"30/25"` the recorded available count is the uncorrected 30, not
the claimed 25. -/
theorem no_seat_swap_cex :
    has_available_seats "5/0" = true ∧
    updateAvailableSeats "30/25" = 30 := by
  decide

/-- C4 (amended): no swap is applied when available exceeds total. For a
seats string `a/b`, the value recorded as `available_seats` is the integer
before the `'/'` unchanged (clamped to 0 only when unavailable or
unparseable), and the availability decision does not depend on the part
after the `'/'` at all, so no correction can influence it. -/
theorem seat_count_uncorrected :
    (∀ a b : String, containsChar a.data '/' = false →
       containsChar b.data '/' = false →
       updateAvailableSeats (a ++ "/" ++ b) =
         (match parseIntPy a with
          | some n => if 0 < n then n else 0
          | none => 0)) ∧
    (∀ a b b' : String, containsChar a.data '/' = false →
       containsChar b.data '/' = false → containsChar b'.data '/' = false →
       has_available_seats (a ++ "/" ++ b) = has_available_seats (a ++ "/" ++ b')) := by
  refine ⟨updateAvailableSeats_slash, ?_⟩
  intro a b b' ha hb hb'
  rw [has_available_seats_slash a b ha hb, has_available_seats_slash a b' ha hb']

/-- Witness for `seat_count_uncorrected`: the concrete `"30/25"` reading
records 30, and replacing the total in `"5/0"` by 25 does not change the
availability decision. -/
theorem seat_count_uncorrected_witness :
    updateAvailableSeats ("30" ++ "/" ++ "25") = 30 ∧
    has_available_seats ("5" ++ "/" ++ "0") = has_available_seats ("5" ++ "/" ++ "25") := by
  constructor
  · rw [seat_count_uncorrected.1 "30" "25" (by decide) (by decide)]
    decide
  · exact seat_count_uncorrected.2 "5" "0" "25" (by decide) (by decide) (by decide)

/-! ## C6: the circuit breaker -/

theorem record_failure_count (cb : CircuitBreaker) (t : Nat) :
    (record_failure cb t).failure_count = cb.failure_count + 1 := by
  simp only [record_failure]
  split <;> rfl

theorem record_failure_threshold (cb : CircuitBreaker) (t : Nat) :
    (record_failure cb t).failure_threshold = cb.failure_threshold := by
  simp only [record_failure]
  split <;> rfl

theorem record_failure_open_stable (cb : CircuitBreaker) (t : Nat)
    (h : cb.state = "OPEN") : (record_failure cb t).state = "OPEN" := by
  simp only [record_failure]
  rw [if_neg (by simp [h])]
  exact h

theorem record_failure_from_closed (cb : CircuitBreaker) (t : Nat)
    (h : cb.state = "CLOSED") :
    (record_failure cb t).state = "CLOSED" ∨ (record_failure cb t).state = "OPEN" := by
  simp only [record_failure]
  split
  · right; rfl
  · left; exact h

theorem failN_open_stable (ts : List Nat) :
    ∀ cb : CircuitBreaker, cb.state = "OPEN" → (failN cb ts).state = "OPEN" := by
  induction ts with
  | nil => intro cb h; exact h
  | cons t rest ih =>
    intro cb h
    show (failN (record_failure cb t) rest).state = "OPEN"
    exact ih _ (record_failure_open_stable cb t h)

theorem failN_closed_opens : ∀ (ts : List Nat) (cb : CircuitBreaker),
    cb.state = "CLOSED" → cb.failure_threshold ≤ cb.failure_count + ts.length →
    ts ≠ [] → (failN cb ts).state = "OPEN" := by
  intro ts
  induction ts with
  | nil => intro cb _ _ hne; exact absurd rfl hne
  | cons t rest ih =>
    intro cb hst hge _
    show (failN (record_failure cb t) rest).state = "OPEN"
    cases rest with
    | nil =>
      show (record_failure cb t).state = "OPEN"
      simp only [record_failure]
      rw [if_pos ⟨by simpa using hge, by rw [hst]; decide⟩]
    | cons t2 rest2 =>
      rcases record_failure_from_closed cb t hst with hC | hO
      · refine ih _ hC ?_ (by simp)
        rw [record_failure_count, record_failure_threshold]
        simp only [List.length_cons] at hge ⊢
        omega
      · exact failN_open_stable _ _ hO

theorem cbWF_init (ft rt : Nat) : cbWF (initCB ft rt) := by
  constructor
  · left; rfl
  · intro h
    rcases h with h | h <;> simp [initCB] at h

theorem cbWF_can_execute (cb : CircuitBreaker) (now : Nat) (h : cbWF cb) :
    cbWF (can_execute cb now).2 := by
  simp only [can_execute]
  split
  · split
    · exact ⟨Or.inr (Or.inr rfl), fun _ => h.2 (Or.inl (by assumption))⟩
    · exact h
  · exact h

theorem cbWF_record_success (cb : CircuitBreaker) : cbWF (record_success cb) := by
  refine ⟨Or.inl rfl, fun h => ?_⟩
  rcases h with h | h <;> simp [record_success] at h

theorem cbWF_record_failure (cb : CircuitBreaker) (t : Nat) (h : cbWF cb) :
    cbWF (record_failure cb t) := by
  simp only [record_failure]
  split
  · next hc => exact ⟨Or.inr (Or.inl rfl), fun _ => hc.1⟩
  · refine ⟨h.1, fun hs => ?_⟩
    exact Nat.le_succ_of_le (h.2 hs)

theorem cbWF_run_aux : ∀ (es : List CBEvent) (cb : CircuitBreaker),
    cbWF cb → cbWF (cbRun cb es) := by
  intro es
  induction es with
  | nil => intro cb h; exact h
  | cons e rest ih =>
    intro cb h
    show cbWF (cbRun (cbStep cb e) rest)
    refine ih _ ?_
    cases e with
    | canExec now => exact cbWF_can_execute cb now h
    | recSuccess => exact cbWF_record_success cb
    | recFailure t => exact cbWF_record_failure cb t h

theorem cbWF_run (ft rt : Nat) (es : List CBEvent) : cbWF (cbRun (initCB ft rt) es) :=
  cbWF_run_aux es _ (cbWF_init ft rt)

theorem half_open_fail_opens (cb : CircuitBreaker) (t : Nat) (hwf : cbWF cb)
    (h : cb.state = "HALF_OPEN") : (record_failure cb t).state = "OPEN" := by
  have hle : cb.failure_threshold ≤ cb.failure_count := hwf.2 (Or.inr h)
  simp only [record_failure]
  rw [if_pos ⟨Nat.le_succ_of_le hle, by rw [h]; decide⟩]

theorem runAttempts_all_fail (cb : CircuitBreaker) (now : Nat) :
    ∀ attempts : List (Option Nat),
      (∀ x ∈ attempts, ¬ x = some 200 ∧ ¬ x = some 401) →
      runAttempts cb now attempts =
        (ApiResult.failed, record_failure cb now, attempts.length) := by
  intro attempts
  induction attempts with
  | nil => intro _; rfl
  | cons a rest ih =>
    intro h
    have ha := h a (List.mem_cons_self a rest)
    simp only [runAttempts]
    rw [if_neg ha.1, if_neg ha.2, ih (fun x hx => h x (List.mem_cons_of_mem a hx))]
    rfl

/-- Counterexample to C6: breaker OPEN since time 0 (timeout 60). At time
100 the timeout has elapsed; a first trial call makes a network attempt but
ends in a 401, which records nothing — the breaker stays HALF_OPEN, no
re-decision happened — and a second call at time 101 is again permitted and
again performs network I/O. So more than one trial call is permitted
before the breaker re-decides, contradicting the exactly-one clause. -/
theorem half_open_multiple_trials_cex :
    (robust_api_call cbOpenEx 100 [some 401, some 500, some 500]).2.1 =
      { cbOpenEx with state := "HALF_OPEN" } ∧
    (robust_api_call cbOpenEx 100 [some 401, some 500, some 500]).2.2 = 1 ∧
    (robust_api_call { cbOpenEx with state := "HALF_OPEN" } 101
      [some 401, some 500, some 500]).2.2 = 1 := by
  decide

/-- C6 (amended): the breaker follows the three-state protocol — (1) while
OPEN within the recovery timeout every call is refused with zero network
attempts; (2) from CLOSED with a clean counter, `failure_threshold`
consecutive recorded failures open it; (3) once the timeout has elapsed,
`can_execute` moves OPEN to HALF_OPEN and allows the call; (4) a recorded
success closes it from any state; (5) for every reachable breaker, a
recorded failure in HALF_OPEN re-opens it; and after the timeout elapses a
trial call is permitted, but HALF_OPEN persists until an outcome is
recorded: (6) a trial whose attempts all fail records a failure (with the
fresh timestamp), (7) a trial answered 200 records a success and closes,
while (8) a trial cut short by a 401 records nothing, leaving the breaker
HALF_OPEN so that further trial calls are permitted — "exactly one trial
call" holds only when the trial records an outcome. -/
theorem circuit_breaker_protocol :
    (∀ (cb : CircuitBreaker) (now : Nat) (attempts : List (Option Nat)),
       cb.state = "OPEN" → now - cb.last_failure_time ≤ cb.recovery_timeout →
       robust_api_call cb now attempts = (ApiResult.refused, cb, 0)) ∧
    (∀ (cb : CircuitBreaker) (ts : List Nat),
       cb.state = "CLOSED" → cb.failure_count = 0 → ts ≠ [] →
       ts.length = cb.failure_threshold → (failN cb ts).state = "OPEN") ∧
    (∀ (cb : CircuitBreaker) (now : Nat),
       cb.state = "OPEN" → cb.recovery_timeout < now - cb.last_failure_time →
       can_execute cb now = (true, { cb with state := "HALF_OPEN" })) ∧
    (∀ cb : CircuitBreaker, (record_success cb).state = "CLOSED") ∧
    (∀ (ft rt : Nat) (es : List CBEvent) (t : Nat),
       (cbRun (initCB ft rt) es).state = "HALF_OPEN" →
       (record_failure (cbRun (initCB ft rt) es) t).state = "OPEN") ∧
    (∀ (cb : CircuitBreaker) (now : Nat) (attempts : List (Option Nat)),
       cb.state = "HALF_OPEN" →
       (∀ x ∈ attempts, ¬ x = some 200 ∧ ¬ x = some 401) →
       robust_api_call cb now attempts =
         (ApiResult.failed, record_failure cb now, attempts.length)) ∧
    (∀ (cb : CircuitBreaker) (now : Nat) (rest : List (Option Nat)),
       cb.state = "HALF_OPEN" →
       robust_api_call cb now (some 200 :: rest) = (ApiResult.ok, record_success cb, 1)) ∧
    (∀ (cb : CircuitBreaker) (now : Nat) (rest : List (Option Nat)),
       cb.state = "HALF_OPEN" →
       robust_api_call cb now (some 401 :: rest) = (ApiResult.authFailed, cb, 1)) := by
  refine ⟨?_, ?_, ?_, fun cb => rfl, ?_, ?_, ?_, ?_⟩
  · intro cb now attempts h1 h2
    simp [robust_api_call, can_execute, h1, Nat.not_lt.2 h2]
  · intro cb ts h0 hc hne hlen
    refine failN_closed_opens ts cb h0 ?_ hne
    rw [hc, hlen]
    simp
  · intro cb now h1 h2
    simp [can_execute, h1, h2]
  · intro ft rt es t h
    exact half_open_fail_opens _ t (cbWF_run ft rt es) h
  · intro cb now attempts h hall
    have hgate : can_execute cb now = (true, cb) := by simp [can_execute, h]
    simp only [robust_api_call, hgate]
    exact runAttempts_all_fail cb now attempts hall
  · intro cb now rest h
    have hgate : can_execute cb now = (true, cb) := by simp [can_execute, h]
    simp [robust_api_call, hgate, runAttempts]
  · intro cb now rest h
    have hgate : can_execute cb now = (true, cb) := by simp [can_execute, h]
    simp [robust_api_call, hgate, runAttempts]

/-- Witness for `circuit_breaker_protocol` at the concrete open breaker:
refusal inside the timeout, the HALF_OPEN transition after it, and a
successful trial closing the breaker. -/
theorem circuit_breaker_protocol_witness :
    robust_api_call cbOpenEx 10 [some 200] = (ApiResult.refused, cbOpenEx, 0) ∧
    can_execute cbOpenEx 100 = (true, { cbOpenEx with state := "HALF_OPEN" }) ∧
    robust_api_call { cbOpenEx with state := "HALF_OPEN" } 100 [some 200] =
      (ApiResult.ok, record_success { cbOpenEx with state := "HALF_OPEN" }, 1) := by
  refine ⟨?_, ?_, ?_⟩
  · exact circuit_breaker_protocol.1 cbOpenEx 10 [some 200] (by decide) (by decide)
  · exact circuit_breaker_protocol.2.2.1 cbOpenEx 100 (by decide) (by decide)
  · exact circuit_breaker_protocol.2.2.2.2.2.2.1 { cbOpenEx with state := "HALF_OPEN" }
      100 [] (by decide)

/-! ## C7: the notifier -/

theorem sendLoop_no_exc : ∀ (o : List SendOutcome) (k a : Nat),
    (∀ x ∈ o, ¬ x = SendOutcome.exc) →
    (sendLoop o k a).1 =
      (decide (0 < k) || o.any (fun x => decide (x = SendOutcome.status 200))) ∧
    (sendLoop o k a).2 = a + o.length := by
  intro o
  induction o with
  | nil => intro k a _; simp [sendLoop]
  | cons x rest ih =>
    intro k a h
    cases x with
    | exc => exact absurd rfl (h _ (List.mem_cons_self _ _))
    | status c =>
      have hr := ih (if c = 200 then k + 1 else k) (a + 1)
        (fun y hy => h y (List.mem_cons_of_mem _ hy))
      constructor
      · show (sendLoop rest (if c = 200 then k + 1 else k) (a + 1)).1 = _
        rw [hr.1]
        by_cases hc : c = 200
        · subst hc
          simp [List.any_cons, Nat.zero_lt_succ]
        · simp [hc, List.any_cons]
      · show (sendLoop rest (if c = 200 then k + 1 else k) (a + 1)).2 = _
        rw [hr.2]
        simp [List.length_cons]
        omega
      
theorem sendLoop_exc : ∀ (pre : List SendOutcome) (post : List SendOutcome) (k a : Nat),
    (∀ x ∈ pre, ¬ x = SendOutcome.exc) →
    sendLoop (pre ++ SendOutcome.exc :: post) k a = (false, a + pre.length + 1) := by
  intro pre
  induction pre with
  | nil => intro post k a _; rfl
  | cons x rest ih =>
    intro post k a h
    cases x with
    | exc => exact absurd rfl (h _ (List.mem_cons_self _ _))
    | status c =>
      show sendLoop (rest ++ SendOutcome.exc :: post) _ (a + 1) = _
      rw [ih post _ (a + 1) (fun y hy => h y (List.mem_cons_of_mem _ hy))]
      simp [List.length_cons]
      omega

/-- Counterexample to C7: with two recipients where the first send raises
an exception and the second would return 200, the program reports overall
failure and attempts only one recipient — the exception of one recipient
blocks delivery to the rest, and success is not reported even though a
recipient would have received the message. -/
theorem exception_blocks_recipients_cex :
    send_telegram_message [SendOutcome.exc, SendOutcome.status 200] = (false, 1) ∧
    1 < [SendOutcome.exc, SendOutcome.status 200].length := by
  decide

/-- C7 (amended): nothing is sent on an empty event list; on a non-empty
list one aggregate message is sent. Recipients are attempted in order: a
non-200 HTTP response for one recipient does not block the rest and
overall success is reported exactly when some recipient returned 200; but
an exception while sending to one recipient aborts the loop — the
remaining recipients are never attempted and overall failure is reported
regardless of them. -/
theorem notifier_delivery :
    (∀ o : List SendOutcome, send_section_notification [] o = none) ∧
    (∀ (evs : List SectionInfo) (o : List SendOutcome), evs ≠ [] →
       send_section_notification evs o = some (send_telegram_message o)) ∧
    (∀ o : List SendOutcome, (∀ x ∈ o, ¬ x = SendOutcome.exc) →
       send_telegram_message o =
         (o.any (fun x => decide (x = SendOutcome.status 200)), o.length)) ∧
    (∀ (pre post : List SendOutcome), (∀ x ∈ pre, ¬ x = SendOutcome.exc) →
       send_telegram_message (pre ++ SendOutcome.exc :: post) =
         (false, pre.length + 1)) := by
  refine ⟨fun o => rfl, ?_, ?_, ?_⟩
  · intro evs o h
    simp [send_section_notification, h]
  · intro o h
    have hh := sendLoop_no_exc o 0 0 h
    have h1 := hh.1
    have h2 := hh.2
    simp only [Nat.lt_irrefl, decide_eq_false_iff_not, Bool.false_or] at h1
    show sendLoop o 0 0 = _
    rw [Prod.ext_iff]
    refine ⟨?_, by simpa using h2⟩
    simpa using h1
  · intro pre post h
    have := sendLoop_exc pre post 0 0 h
    show sendLoop (pre ++ SendOutcome.exc :: post) 0 0 = _
    simpa using this

/-- Witness for `notifier_delivery`: a nonempty event list yields the send,
one failed status with one 200 reports success over both attempts, and an
exception after one clean status attempts two recipients and fails. -/
theorem notifier_delivery_witness :
    send_section_notification [infoNA] [SendOutcome.status 200] =
      some (send_telegram_message [SendOutcome.status 200]) ∧
    send_telegram_message [SendOutcome.status 500, SendOutcome.status 200] = (true, 2) ∧
    send_telegram_message [SendOutcome.status 500, SendOutcome.exc] = (false, 2) := by
  refine ⟨notifier_delivery.2.1 [infoNA] _ (by decide), ?_, ?_⟩
  · rw [notifier_delivery.2.2.1 [SendOutcome.status 500, SendOutcome.status 200]
      (by decide)]
    decide
  · have h := notifier_delivery.2.2.2 [SendOutcome.status 500] [] (by decide)
    simpa using h

/-! ## C9 and C10: the add/remove commands -/

theorem mem_dictInsert {α : Type} (d : List (String × α)) (k : String) (v : α)
    (p : String × α) (h : p ∈ dictInsert d k v) : p = (k, v) ∨ p ∈ d := by
  induction d with
  | nil => simpa [dictInsert] using h
  | cons q rest ih =>
    obtain ⟨k', v'⟩ := q
    by_cases hq : k' = k
    · rw [dictInsert, if_pos hq] at h
      rcases List.mem_cons.1 h with h1 | h1
      · exact Or.inl h1
      · exact Or.inr (List.mem_cons_of_mem _ h1)
    · rw [dictInsert, if_neg hq] at h
      rcases List.mem_cons.1 h with h1 | h1
      · exact Or.inr (List.mem_cons.2 (Or.inl h1))
      · rcases ih h1 with h2 | h2
        · exact Or.inl h2
        · exact Or.inr (List.mem_cons_of_mem _ h2)

theorem ne_nil_of_isEmpty_false (l : List TrackedSec) (h : l.isEmpty = false) :
    l ≠ [] := by
  cases l with
  | nil => simp [List.isEmpty] at h
  | cons x xs => simp

/-- C9: a successful remove prunes empty courses. Provided every course of
the incoming manifest has at least one section, every course of the
manifest produced by `remove_course_section` — in particular after the
last section of a course is removed — still has at least one section, so
no entry with an empty sections list is ever saved. -/
theorem remove_prunes_empty_courses :
    ∀ (text : String) (m : Manifest),
      (∀ p ∈ m, ∀ c ∈ p.2, c.sections ≠ []) →
      ∀ p ∈ (remove_course_section text m).1, ∀ c ∈ p.2, c.sections ≠ [] := by
  intro text m hm p hp c hc
  unfold remove_course_section at hp
  split at hp
  · simp only [] at hp
    split at hp
    · exact hm p hp c hc
    · split at hp
      · exact hm p hp c hc
      · split at hp
        · rcases mem_dictInsert _ _ _ _ hp with heq | hmem
          · rw [heq] at hc
            have hfc := List.mem_filter.1 hc
            exact ne_nil_of_isEmpty_false c.sections
              (by simpa using hfc.2)
          · exact hm p hmem c hc
        · exact hm p hp c hc
  · exact hm p hp c hc

/-- Witness for `remove_prunes_empty_courses`: removing EE207-02 (the last
section of EE207) from the two-course manifest prunes EE207 entirely, so
the surviving EE271 entry keeps its section. -/
theorem remove_prunes_empty_courses_witness : courseEE271.sections ≠ [] :=
  remove_prunes_empty_courses "/remove EE207-02" mRem (by decide)
    ("EE", [courseEE271]) (by decide) courseEE271 (by decide)

/-- C10: the add command derives the department from the course code by
deleting every decimal digit (`"EE207"` yields `"EE"`); when that leaves
an empty department (an all-digit course code), the add is rejected with
an error reply and the manifest is left unchanged; and a successful add
files the section under the digit-stripped department key. -/
theorem add_department_from_code :
    stripDigits "EE207" = "EE" ∧
    (∀ (text : String) (m : Manifest) (p0 cs crn : String),
       pySplitWs text = [p0, cs, crn] →
       containsChar (pyUpper cs).data '-' = true →
       stripDigits (pySplitOnce '-' (pyUpper cs)).1 = "" →
       add_course_section text m = (m, CmdResult.noDepartment)) ∧
    add_course_section "/add 207-02 22716" [] = ([], CmdResult.noDepartment) ∧
    add_course_section "/add EE207-02 22716" [] =
      ([("EE", [{ code := "EE207", sections := [{ sec := "02", crn := "22716" }] }])],
        CmdResult.added) := by
  refine ⟨by decide, ?_, by decide, by decide⟩
  intro text m p0 cs crn hsplit hdash hdept
  unfold add_course_section
  rw [hsplit]
  simp only [hdash, Bool.not_true, Bool.false_eq_true, if_false]
  rw [if_pos hdept]

/-- Witness for `add_department_from_code`: the all-digit course code
123-45 is rejected and the manifest survives unchanged. -/
theorem add_department_from_code_witness :
    add_course_section "/add 123-45 99999" [("X", [])] =
      ([("X", [])], CmdResult.noDepartment) :=
  add_department_from_code.2.1 "/add 123-45 99999" [("X", [])] "/add" "123-45" "99999"
    (by decide) (by decide) (by decide)
